import Mathlib

set_option maxHeartbeats 1000000

/-!
Verification of the collate templating engine (src/block.rs, src/library.rs)
against its natural-language specification.

The Rust code is shallowly embedded: each Rust function becomes a Lean
function of the same name working over the same data, with mutation turned
into explicit state passing.  Character iteration is modelled on `List Char`
(`String.data`); Rust `HashMap`s become association lists with the same
lookup/overwrite behaviour at the points where the code uses them.
-/

/-- Models the `Export` enum consumed by `src/library.rs`
(`Export::Block` / `Export::File(path)`); paths are kept as strings. -/
inductive Export where
  | block : Export
  | file : String → Export
deriving DecidableEq

/-- Rust `Argument` (src/block.rs): an unresolved use-site argument. -/
inductive Argument where
  | Literal : String → Argument
  | Name : String → Argument
  | ParamName : String → Argument
deriving DecidableEq

/-- Rust `Parameter` (src/block.rs): a resolved argument value. -/
inductive Parameter where
  | Name : String → Parameter
  | Literal : String → Parameter
deriving DecidableEq

/-- Rust `Element` (src/block.rs): `Content(String)` or
`UseBlock { indented, target, arguments }`. -/
inductive Element where
  | Content : String → Element
  | UseBlock : Bool → Argument → Option (List Argument) → Element
deriving DecidableEq

/-- Rust `Command` (src/block.rs): a token of a command span. -/
inductive Command where
  | Flag : String → Command
  | Argument : Argument → Command
deriving DecidableEq

/-- Rust `Attribute` (src/block.rs). -/
inductive Attribute where
  | Export : Export → Attribute
  | ParamName : String → Attribute
deriving DecidableEq

/-- Rust `Component` (src/block.rs). -/
inductive Component where
  | Open : String → Component
  | Attribute : Attribute → Component
  | Element : Element → Component
  | Close : Component
deriving DecidableEq

/-- Rust `Block` (src/block.rs).  The field `exportDecl` models the Rust
field `export` (`export` is a Lean keyword). -/
structure Block where
  name : String
  param_names : List String
  exportDecl : Option Export
  elements : List Element
deriving DecidableEq

/-- The lexer states of `Block::parse` (src/block.rs). -/
inductive PState where
  | Content : PState
  | CommandFlag : PState
  | Command : PState
  | SkipNewline : PState
  | CancelledFlag : PState
  | InvalidCommand : String → PState
deriving DecidableEq

/-- Outcome of `Block::parse`: the Rust function returns
`Result<Vec<Block>, String>` but can also abort via `panic!` inside
`close_command`; the `panic` constructor records that aborting path. -/
inductive ParseResult where
  | ok : List Block → ParseResult
  | error : String → ParseResult
  | panic : String → ParseResult
deriving DecidableEq

/-- Rust `read_word` (inside `commands_from_str`, src/block.rs): pushes
characters onto `buffer` until a whitespace character (consumed) or the end
of input; returns the extended buffer and the remaining characters. -/
def read_word (buffer : List Char) : List Char → List Char × List Char
  | [] => (buffer, [])
  | c :: rest => if c.isWhitespace then (buffer, rest) else read_word (buffer ++ [c]) rest

/-- The `'('` branch of the argument loop in `commands_from_str`
(src/block.rs): collect characters up to the closing `')'` (consumed). -/
def readParen (buffer : List Char) : List Char → List Char × List Char
  | [] => (buffer, [])
  | c :: rest => if c = ')' then (buffer, rest) else readParen (buffer ++ [c]) rest

theorem read_word_rest_le : ∀ (l buffer : List Char), (read_word buffer l).2.length ≤ l.length := by
  intro l
  induction l with
  | nil => intro buffer; simp [read_word]
  | cons c rest ih =>
      intro buffer
      unfold read_word
      split
      · exact Nat.le_succ_of_le (Nat.le_refl _)
      · exact Nat.le_succ_of_le (ih _)

theorem readParen_rest_le : ∀ (l buffer : List Char), (readParen buffer l).2.length ≤ l.length := by
  intro l
  induction l with
  | nil => intro buffer; simp [readParen]
  | cons c rest ih =>
      intro buffer
      unfold readParen
      split
      · exact Nat.le_succ_of_le (Nat.le_refl _)
      · exact Nat.le_succ_of_le (ih _)

/-- The argument loop of `commands_from_str` (src/block.rs): after the flag
word, repeatedly read one argument: `#word` gives a `ParamName`, `(text)`
gives a `Literal`, anything else seeds `read_word` with that character and
gives a `Name`.  The `fuel` argument only serves to make the recursion
structural (so the kernel can evaluate it): by `read_word_rest_le` and
`readParen_rest_le` every recursive call shrinks the character list, so any
fuel at least the list length — as supplied by `argLoop` — never runs out. -/
def argLoopF : Nat → List Char → List Command
  | _, [] => []
  | 0, _ :: _ => []
  | fuel + 1, c :: rest =>
    if c = '#' then
      Command.Argument (Argument.ParamName (String.mk (read_word [] rest).1)) ::
        argLoopF fuel (read_word [] rest).2
    else if c = '(' then
      Command.Argument (Argument.Literal (String.mk (readParen [] rest).1)) ::
        argLoopF fuel (readParen [] rest).2
    else
      if String.mk (read_word [c] rest).1 = "" then argLoopF fuel (read_word [c] rest).2
      else
        Command.Argument (Argument.Name (String.mk (read_word [c] rest).1)) ::
          argLoopF fuel (read_word [c] rest).2

/-- The argument loop at its always-sufficient fuel. -/
def argLoop (l : List Char) : List Command :=
  argLoopF l.length l

/-- Rust `commands_from_str` (src/block.rs): read the flag word; an empty
flag is an error (which the caller `close_command` turns into a panic);
otherwise the flag followed by the parsed arguments. -/
def commands_from_str (s : String) : Except String (List Command) :=
  if String.mk (read_word [] s.data).1 = "" then
    Except.error ("Couldn't parse command flag from " ++ s)
  else
    Except.ok (Command.Flag (String.mk (read_word [] s.data).1) :: argLoop (read_word [] s.data).2)

/-- The `DEFINE_PARAMS_COMMAND` arm of `block_components_from_commands`
(src/block.rs): every remaining token must be a bare `Name`; each becomes a
`ParamName` attribute.  An empty tail yields an empty component list. -/
def paramComponents : List Command → Except String (List Component)
  | [] => Except.ok []
  | Command.Argument (Argument.Name name) :: rest =>
      match paramComponents rest with
      | Except.ok cs => Except.ok (Component.Attribute (Attribute.ParamName name) :: cs)
      | Except.error e => Except.error e
  | _ => Except.error "Define params can only handle Argument::Name commands"

/-- The `filter_map` over the remaining tokens in the `u`/`ui` arm of
`block_components_from_commands` (src/block.rs): keep arguments, drop flags. -/
def collectArgs : List Command → List Argument
  | [] => []
  | Command.Argument a :: rest => a :: collectArgs rest
  | Command.Flag _ :: rest => collectArgs rest

/-- The `u`/`ui` arm of `block_components_from_commands` (src/block.rs):
the first token must be an argument (the target); the remaining arguments
are collected, with an empty collection becoming `none`. -/
def useComponent (indented : Bool) : List Command → Except String (List Component)
  | Command.Argument target :: rest =>
      match collectArgs rest with
      | [] => Except.ok [Component.Element (Element.UseBlock indented target none)]
      | a :: args =>
          Except.ok [Component.Element (Element.UseBlock indented target (some (a :: args)))]
  | _ => Except.error "Use block expects first command to be argument"

/-- Rust `block_components_from_commands` (src/block.rs), dispatching on the
flag verb.

Modelled from the spec: the `x` arm with an absent path argument.  The copy
of src/block.rs in src/ is an earlier revision whose `x` arm rejects a
missing path and stores the export as a bare string, while src/library.rs
consumes an `Export` enum (`Export::Block` / `Export::File`) from a newer
revision of src/block.rs that is not included.  Per the spec
("a path token means file-export, absence/sentinel means block-export"),
a bare `Name` path yields a file export and an absent argument yields a
block export; all other shapes keep the revision's error. -/
def block_components_from_commands (commands : List Command) : Except String (List Component) :=
  match commands with
  | [] => Except.error "Cannot build block from empty command list"
  | Command.Argument _ :: _ => Except.error "First command must be a flag"
  | Command.Flag flag :: rest =>
    if flag = "n" then
      match rest with
      | Command.Argument (Argument.Name name) :: _ => Except.ok [Component.Open name]
      | _ => Except.error "New block command must provide a name"
    else if flag = "p" then paramComponents rest
    else if flag = "x" then
      match rest with
      | Command.Argument (Argument.Name path) :: _ =>
          Except.ok [Component.Attribute (Attribute.Export (Export.file path))]
      | [] => Except.ok [Component.Attribute (Attribute.Export Export.block)]
      | _ => Except.error "Enable Expost can only handle Argument::Name commands"
    else if flag = "u" then useComponent false rest
    else if flag = "ui" then useComponent true rest
    else if flag = "e" then Except.ok [Component.Close]
    else Except.error ("Unknown Command::Flag '" ++ flag ++ "'")

/-- The `components.last()` check at the end of `close_command`
(src/block.rs): return to `Content` when the last component so far is a
use-block element (so the following newline is preserved), else go to
`SkipNewline`. -/
def use_last_check (components : List Component) : PState :=
  match components.getLast? with
  | some (Component.Element (Element.UseBlock _ _ _)) => PState.Content
  | _ => PState.SkipNewline

/-- Result of `close_command` (src/block.rs): either the Rust `panic!` fires
(when `commands_from_str` fails), or the lexer continues with a next state
and the updated component list. -/
inductive CloseResult where
  | panicked : String → CloseResult
  | next : PState → List Component → CloseResult
deriving DecidableEq

/-- Rust `close_command` (src/block.rs): an empty buffer adds nothing; a
failing `commands_from_str` panics; a failing grammar dispatch moves to the
`InvalidCommand` state (components unchanged); otherwise the new components
are appended and the next state is decided by `use_last_check`. -/
def close_command (buffer : List Char) (components : List Component) : CloseResult :=
  match buffer with
  | [] => CloseResult.next (use_last_check components) components
  | _ =>
    match commands_from_str (String.mk buffer) with
    | Except.error e => CloseResult.panicked e
    | Except.ok commands =>
      match block_components_from_commands commands with
      | Except.error err => CloseResult.next (PState.InvalidCommand err) components
      | Except.ok cs => CloseResult.next (use_last_check (components ++ cs)) (components ++ cs)

/-- The leading loop of `Block::build` (src/block.rs): skip components until
an `Open` is found, returning its name and the remaining components; `none`
when the stream is exhausted first. -/
def buildSkip : List Component → Option (String × List Component)
  | [] => none
  | Component.Open name :: rest => some (name, rest)
  | _ :: rest => buildSkip rest

/-- The trailing-newline trim performed on `Close` in `Block::build`
(src/block.rs): if the last accumulated element is `Content` ending in a
newline, drop exactly that newline. -/
def trimLastNewline : List Element → List Element
  | [] => []
  | [Element.Content s] =>
      if s.data.getLast? = some '\n' then [Element.Content (String.mk s.data.dropLast)]
      else [Element.Content s]
  | [e] => [e]
  | e :: rest => e :: trimLastNewline rest

/-- The accumulation loop of `Block::build` (src/block.rs): gather export,
parameter names and elements until `Close` (or exhaustion), enforcing no
nested `Open`, a single export, and unique parameter names; returns the
gathered attributes and the components after the `Close`. -/
def buildBody : List Component → Option Export → List String → List Element →
    Except String ((Option Export × List String × List Element) × List Component)
  | [], ex, ps, els => Except.ok ((ex, ps, els), [])
  | Component.Open name :: _, _, _, _ =>
      Except.error ("Illegally nested block '" ++ name ++ "'")
  | Component.Attribute (Attribute.Export e) :: rest, ex, ps, els =>
      match ex with
      | none => buildBody rest (some e) ps els
      | some _ => Except.error "Multiple exports defined"
  | Component.Attribute (Attribute.ParamName v) :: rest, ex, ps, els =>
      if ps.contains v then Except.error ("Duplicate value defined: " ++ v)
      else buildBody rest ex (ps ++ [v]) els
  | Component.Element e :: rest, ex, ps, els => buildBody rest ex ps (els ++ [e])
  | Component.Close :: rest, ex, ps, els => Except.ok ((ex, ps, trimLastNewline els), rest)

theorem buildSkip_lt : ∀ (l : List Component) (n : String) (rest : List Component),
    buildSkip l = some (n, rest) → rest.length < l.length := by
  intro l
  induction l with
  | nil => intro n rest h; simp [buildSkip] at h
  | cons hd tl ih =>
      intro n rest h
      cases hd with
      | Open nm =>
          simp [buildSkip] at h
          rw [← h.2]
          exact Nat.lt_succ_self _
      | Attribute a => exact Nat.lt_succ_of_lt (ih n rest (by simpa [buildSkip] using h))
      | Element e => exact Nat.lt_succ_of_lt (ih n rest (by simpa [buildSkip] using h))
      | Close => exact Nat.lt_succ_of_lt (ih n rest (by simpa [buildSkip] using h))

theorem buildBody_rest_le : ∀ (l : List Component) (ex : Option Export) (ps : List String)
    (els : List Element) (r : Option Export × List String × List Element)
    (rest : List Component),
    buildBody l ex ps els = Except.ok (r, rest) → rest.length ≤ l.length := by
  intro l
  induction l with
  | nil =>
      intro ex ps els r rest h
      simp [buildBody] at h
      simp [← h.2]
  | cons hd tl ih =>
      intro ex ps els r rest h
      cases hd with
      | Open nm => simp [buildBody] at h
      | Attribute a =>
          cases a with
          | Export e =>
              cases ex with
              | none =>
                  simp only [buildBody] at h
                  exact Nat.le_succ_of_le (ih _ _ _ _ _ h)
              | some _ => simp [buildBody] at h
          | ParamName v =>
              by_cases hc : v ∈ ps
              · simp [buildBody, hc] at h
              · rw [show buildBody (Component.Attribute (Attribute.ParamName v) :: tl) ex ps els =
                      buildBody tl ex (ps ++ [v]) els by
                    simp [buildBody, hc]] at h
                exact Nat.le_succ_of_le (ih _ _ _ _ _ h)
      | Element e =>
          simp only [buildBody] at h
          exact Nat.le_succ_of_le (ih _ _ _ _ _ h)
      | Close =>
          simp [buildBody] at h
          simp [← h.2]

/-- Rust `Block::build` (src/block.rs): skip to the first `Open`, accumulate
the body, then recurse on the remaining components; blocks appear in source
order.  The `fuel` argument only serves to make the recursion structural (so
the kernel can evaluate it): by `buildSkip_lt` and `buildBody_rest_le` every
recursive call strictly shrinks the component list, so any fuel at least the
list length — as supplied by `Block.build` — never runs out. -/
def buildF : Nat → List Component → Except String (List Block)
  | fuel, components =>
    match buildSkip components with
    | none => Except.ok []
    | some (name, rest) =>
      match fuel with
      | 0 => Except.error "build fuel exhausted"
      | f + 1 =>
        match buildBody rest none [] [] with
        | Except.error e => Except.error e
        | Except.ok ((ex, ps, els), remaining) =>
          match buildF f remaining with
          | Except.error e => Except.error e
          | Except.ok blocks =>
              Except.ok ({ name := name, param_names := ps, exportDecl := ex,
                           elements := els } :: blocks)

/-- `Block::build` at its always-sufficient fuel. -/
def Block.build (components : List Component) : Except String (List Block) :=
  buildF components.length components

/-- End of input in `Block::parse` (src/block.rs): the final `close_content`
flushes any buffered text as a `Content` element, then `Block::build` runs.
Note the Rust code reaches this point whatever state the lexer is in, so an
`InvalidCommand` state at end of input is silently dropped. -/
def finishParse (buffer : List Char) (components : List Component) : ParseResult :=
  let comps :=
    match buffer with
    | [] => components
    | _ => components ++ [Component.Element (Element.Content (String.mk buffer))]
  match Block.build comps with
  | Except.ok bs => ParseResult.ok bs
  | Except.error e => ParseResult.error e

/-- The character loop of `Block::parse` (src/block.rs).  The flag character
is `'^'` and both the command start and end delimiters are `'|'`; `line` and
`col` mirror the Rust counters (a newline resets the column, and the column
is bumped before the state dispatch). -/
def parseLoop : List Char → Nat → Nat → PState → List Char → List Component → ParseResult
  | [], _, _, _, buffer, components => finishParse buffer components
  | c :: rest, line, col, state, buffer, components =>
    let line' := if c = '\n' then line + 1 else line
    let col' := if c = '\n' then 1 else col + 1
    match state with
    | PState.Content =>
        if c = '^' then parseLoop rest line' col' PState.CommandFlag buffer components
        else parseLoop rest line' col' PState.Content (buffer ++ [c]) components
    | PState.CommandFlag =>
        if c = '|' then
          match buffer with
          | [] => parseLoop rest line' col' PState.Command [] components
          | _ =>
              parseLoop rest line' col' PState.Command []
                (components ++ [Component.Element (Element.Content (String.mk buffer))])
        else if c = '^' then
          parseLoop rest line' col' PState.CancelledFlag (buffer ++ [c]) components
        else parseLoop rest line' col' PState.Content (buffer ++ [c]) components
    | PState.Command =>
        if c = '|' then
          match close_command buffer components with
          | CloseResult.panicked msg => ParseResult.panic msg
          | CloseResult.next st comps => parseLoop rest line' col' st [] comps
        else parseLoop rest line' col' PState.Command (buffer ++ [c]) components
    | PState.SkipNewline =>
        if c = '\n' then parseLoop rest line' col' PState.Content buffer components
        else parseLoop rest line' col' PState.Content (buffer ++ [c]) components
    | PState.CancelledFlag =>
        if c = '^' then parseLoop rest line' col' PState.CancelledFlag (buffer ++ [c]) components
        else parseLoop rest line' col' PState.Content (buffer ++ [c]) components
    | PState.InvalidCommand reason =>
        ParseResult.error
          ("Invalid command (" ++ toString line' ++ ":" ++ toString col' ++ "): " ++ reason)

/-- Rust `Block::parse` (src/block.rs): run the lexer from the `Content`
state with 1-based line and 0-based column counters, then build blocks. -/
def Block.parse (s : String) : ParseResult :=
  parseLoop s.data 1 0 PState.Content [] []

/-- Mirrors `str::split('\n')` as used in `render_with_params`
(src/block.rs): the list of newline-separated pieces, never empty. -/
def splitNl : List Char → List (List Char)
  | [] => [[]]
  | '\n' :: rest => [] :: splitNl rest
  | c :: rest =>
    match splitNl rest with
    | [] => [[c]]
    | piece :: more => (c :: piece) :: more

/-- The `strip_prefix('\t')` counting loop of `render_with_params`
(src/block.rs): number of leading tab characters of a line. -/
def countLeadingTabs : List Char → Nat
  | '\t' :: rest => countLeadingTabs rest + 1
  | _ => 0

/-- The indentation rewrite of `render_with_params` (src/block.rs): after
every newline insert `n` tab characters. -/
def applyIndent (n : Nat) : List Char → List Char
  | [] => []
  | '\n' :: rest => '\n' :: (List.replicate n '\t' ++ applyIndent n rest)
  | c :: rest => c :: applyIndent n rest

/-- Lookup in the parameter binding map built by `build_params`
(src/block.rs).  The Rust map is a `HashMap` built with `from_iter`, where a
later entry for the same key overwrites an earlier one, so the last binding
wins. -/
def assocGet : List (String × Parameter) → String → Option Parameter
  | [], _ => none
  | (k, v) :: rest, key =>
    match assocGet rest key with
    | some v2 => some v2
    | none => if k = key then some v else none

/-- Rust `build_params` (src/block.rs): zip the declared parameter names
with the incoming parameter values; mismatched lengths give the arity
error reporting expected vs. received counts. -/
def build_params (values : List String) (params : List Parameter) :
    Except String (List (String × Parameter)) :=
  if values.length = params.length then Except.ok (values.zip params)
  else
    Except.error ("Expected " ++ toString values.length ++ " parameter(s), received " ++
      toString params.length)

/-- Rust `evaluate` (src/block.rs): resolve an `Argument` against the bound
parameters. -/
def evaluate (arg : Argument) (params : List (String × Parameter)) : Except String Parameter :=
  match arg with
  | Argument.Literal lit => Except.ok (Parameter.Literal lit)
  | Argument.Name name => Except.ok (Parameter.Name name)
  | Argument.ParamName name =>
    match assocGet params name with
    | some param => Except.ok param
    | none => Except.error ("Param named " ++ name ++ " does not exist")

/-- Evaluation of a use-site argument list (the `p.iter().map(evaluate)`
collect in `render_with_params`, src/block.rs): first error wins. -/
def evalArgList : List Argument → List (String × Parameter) → Except String (List Parameter)
  | [], _ => Except.ok []
  | a :: rest, params =>
    match evaluate a params with
    | Except.error e => Except.error e
    | Except.ok p =>
      match evalArgList rest params with
      | Except.error e => Except.error e
      | Except.ok ps => Except.ok (p :: ps)

/-- The optional-arguments evaluation in the `UseBlock` arm of
`render_with_params` (src/block.rs): `None` stays `None`. -/
def evalArgs : Option (List Argument) → List (String × Parameter) →
    Except String (Option (List Parameter))
  | none, _ => Except.ok none
  | some args, params =>
    match evalArgList args params with
    | Except.error e => Except.error e
    | Except.ok ps => Except.ok (some ps)

/-- `library.get(&name)` on the block map (src/block.rs); keys are unique
when built through `Library`, and the first match is returned. -/
def lookupBlock : List (String × Block) → String → Option Block
  | [], _ => none
  | (k, v) :: rest, name => if k = name then some v else lookupBlock rest name

/-- One iteration of the element loop of `render_with_params`
(src/block.rs).  `acc` is the output buffer paired with `nested_indent`;
`recur` is the recursive render call for a referenced block. -/
def renderElement (recur : Block → Option (List Parameter) → Nat → Except String String)
    (lib : List (String × Block)) (params : List (String × Parameter))
    (indentation : Nat) (acc : String × Nat) (el : Element) : Except String (String × Nat) :=
  match el with
  | Element.Content content =>
      let ni :=
        if 1 < (splitNl content.data).length then
          countLeadingTabs ((splitNl content.data).getLast?.getD [])
        else acc.2
      let out :=
        if indentation = 0 then content
        else String.mk (applyIndent indentation content.data)
      Except.ok (acc.1 ++ out, ni)
  | Element.UseBlock indented target arguments =>
      match evaluate target params with
      | Except.error e => Except.error e
      | Except.ok (Parameter.Literal lit) => Except.ok (acc.1 ++ lit, acc.2)
      | Except.ok (Parameter.Name name) =>
        match lookupBlock lib name with
        | none => Except.error ("Using unregistered block '" ++ name ++ "'")
        | some b =>
          match evalArgs arguments params with
          | Except.error e => Except.error e
          | Except.ok parameters =>
            let ind := if indented then indentation + acc.2 else 0
            match recur b parameters ind with
            | Except.error e => Except.error e
            | Except.ok s => Except.ok (acc.1 ++ s, acc.2)

/-- The element loop of `render_with_params` (src/block.rs), threading the
output buffer and `nested_indent` through `renderElement`. -/
def renderBody (recur : Block → Option (List Parameter) → Nat → Except String String)
    (lib : List (String × Block)) (params : List (String × Parameter)) (indentation : Nat) :
    String → Nat → List Element → Except String String
  | buf, _, [] => Except.ok buf
  | buf, ni, el :: rest =>
    match renderElement recur lib params indentation (buf, ni) el with
    | Except.error e => Except.error e
    | Except.ok (buf', ni') => renderBody recur lib params indentation buf' ni' rest

/-- The parameter-binding step of `render_with_params` (src/block.rs): an
absent parameter list binds nothing and skips the arity check entirely. -/
def bindParams (names : List String) : Option (List Parameter) →
    Except String (List (String × Parameter))
  | some p => build_params names p
  | none => Except.ok []

/-- Rust `render_with_params` (src/block.rs).  The `fuel` argument is an
artifact of the embedding: the Rust recursion is unbounded (and can overflow
the stack on cyclic references); every theorem below holds for any
sufficiently large fuel, with `fuel = 0` returning a distinguished error. -/
def render_with_params (lib : List (String × Block)) :
    Nat → Block → Option (List Parameter) → Nat → Except String String
  | 0, _, _, _ => Except.error "recursion limit exhausted"
  | fuel + 1, b, ps, indentation =>
    match bindParams b.param_names ps with
    | Except.error e => Except.error e
    | Except.ok params =>
        renderBody (fun b' p' i' => render_with_params lib fuel b' p' i') lib params
          indentation "" 0 b.elements

/-- Rust `Block::render` (src/block.rs): render with no parameters at
indentation 0. -/
def Block.render (lib : List (String × Block)) (fuel : Nat) (b : Block) : Except String String :=
  render_with_params lib fuel b none 0

/-- Outcome of `Library::import_from_string` (src/library.rs): paired with
the (possibly partially mutated) library state, since the Rust method
mutates `self` before returning an error. -/
inductive ImportOutcome where
  | ok : ImportOutcome
  | error : String → ImportOutcome
  | panic : String → ImportOutcome
deriving DecidableEq

/-- Rust `Library` (src/library.rs): the name-keyed block map, the pending
block-export names, and the file-export map (name to relative path). -/
structure Library where
  blocks : List (String × Block)
  block_exports : List String
  file_exports : List (String × String)
deriving DecidableEq

/-- Rust `Library::new` (src/library.rs). -/
def Library.new : Library := { blocks := [], block_exports := [], file_exports := [] }

/-- `self.blocks.contains_key(&block.name)` (src/library.rs). -/
def containsName : List (String × Block) → String → Bool
  | [], _ => false
  | (k, _) :: rest, name => if k = name then true else containsName rest name

/-- `self.file_exports.insert(name, path)` (src/library.rs): `HashMap`
insert, overwriting an existing entry for the same key. -/
def insertFileExport : List (String × String) → String → String → List (String × String)
  | [], name, path => [(name, path)]
  | (k, v) :: rest, name, path =>
    if k = name then (name, path) :: rest else (k, v) :: insertFileExport rest name path

/-- The export-registration step of `Library::import_from_string`
(src/library.rs): a `Block` export joins the pending block-export list, a
`File` export joins the file-export map. -/
def registerExport (lib : Library) (b : Block) : Library :=
  match b.exportDecl with
  | some Export.block => { lib with block_exports := lib.block_exports ++ [b.name] }
  | some (Export.file path) =>
      { lib with file_exports := insertFileExport lib.file_exports b.name path }
  | none => lib

/-- The per-block loop of `Library::import_from_string` (src/library.rs):
reject an already-taken name (leaving previously imported blocks in place),
otherwise register the export and insert the block. -/
def import_blocks : Library → List Block → Library × ImportOutcome
  | lib, [] => (lib, ImportOutcome.ok)
  | lib, b :: rest =>
    if containsName lib.blocks b.name then
      (lib, ImportOutcome.error ("Name taken '" ++ b.name ++ "'"))
    else
      let lib1 := registerExport lib b
      import_blocks { lib1 with blocks := lib1.blocks ++ [(b.name, b)] } rest

/-- Rust `Library::import_from_string` (src/library.rs): parse, then import
the blocks one at a time.  A parse failure leaves the library unchanged. -/
def Library.import_from_string (lib : Library) (s : String) : Library × ImportOutcome :=
  match Block.parse s with
  | ParseResult.ok bs => import_blocks lib bs
  | ParseResult.error e => (lib, ImportOutcome.error e)
  | ParseResult.panic m => (lib, ImportOutcome.panic m)

/-- Rust `Library::render` (src/library.rs): look the block up and render
it against the whole block map, wrapping failures with context. -/
def Library.render (lib : Library) (fuel : Nat) (name : String) : Except String String :=
  match lookupBlock lib.blocks name with
  | none => Except.error ("Library::render(): block '" ++ name ++ "' not found")
  | some b =>
    match Block.render lib.blocks fuel b with
    | Except.ok r => Except.ok r
    | Except.error e =>
        Except.error ("Library::render(): block '" ++ name ++ "': " ++ e)

/-- The body of one fixed-point iteration in `Library::export_all`
(src/library.rs): render each snapshotted block-export name and re-ingest
its rendered text. -/
def export_pass (renderFuel : Nat) : Library → List String → Library × ImportOutcome
  | lib, [] => (lib, ImportOutcome.ok)
  | lib, name :: rest =>
    match lib.render renderFuel name with
    | Except.error e => (lib, ImportOutcome.error e)
    | Except.ok r =>
      match lib.import_from_string r with
      | (lib', ImportOutcome.ok) => export_pass renderFuel lib' rest
      | (lib', out) => (lib', out)

/-- The fixed-point loop of `Library::export_all` (src/library.rs): snapshot
and clear the block-export list, run a pass, and repeat while the pass
registered new block exports.  `loopFuel` is an artifact of the embedding:
the Rust loop has no iteration cap and can run forever. -/
def export_loop (renderFuel : Nat) : Nat → Library → Library × ImportOutcome
  | 0, lib => (lib, ImportOutcome.error "iteration limit exhausted")
  | f + 1, lib =>
    match export_pass renderFuel { lib with block_exports := [] } lib.block_exports with
    | (lib', ImportOutcome.ok) =>
        if lib'.block_exports.isEmpty then (lib', ImportOutcome.ok)
        else export_loop renderFuel f lib'
    | r => r

/-- The flush phase of `Library::export_all` (src/library.rs): render every
file export against the final library, pairing each declared relative path
with the rendered text (the actual directory creation and byte writing are
I/O, outside the model). -/
def renderFilesList (renderFuel : Nat) (lib : Library) :
    List (String × String) → Except String (List (String × String))
  | [] => Except.ok []
  | (name, path) :: rest =>
    match lib.render renderFuel name with
    | Except.error e => Except.error e
    | Except.ok r =>
      match renderFilesList renderFuel lib rest with
      | Except.error e => Except.error e
      | Except.ok out => Except.ok ((path, r) :: out)

/-- The flush phase applied to the library's own file-export map. -/
def renderFiles (renderFuel : Nat) (lib : Library) : Except String (List (String × String)) :=
  renderFilesList renderFuel lib lib.file_exports

/-- Outcome of `Library::export_all` (src/library.rs): the final library and
the list of (path, bytes) file writes, or the aborting failure. -/
inductive ExportOutcome where
  | ok : Library → List (String × String) → ExportOutcome
  | error : String → ExportOutcome
  | panic : String → ExportOutcome
deriving DecidableEq

/-- Rust `Library::export_all` (src/library.rs): run the fixed-point loop,
then render the file exports exactly once from the resulting library; the
file phase never re-ingests anything (the library it returns is the loop's). -/
def export_all (renderFuel loopFuel : Nat) (lib : Library) : ExportOutcome :=
  match export_loop renderFuel loopFuel lib with
  | (lib', ImportOutcome.ok) =>
    match renderFiles renderFuel lib' with
    | Except.ok files => ExportOutcome.ok lib' files
    | Except.error e => ExportOutcome.error e
  | (_, ImportOutcome.error e) => ExportOutcome.error e
  | (_, ImportOutcome.panic m) => ExportOutcome.panic m

theorem empty_string_append (s : String) : "" ++ s = s := by
  cases s
  rfl

theorem parseLoop_content_no_flag :
    ∀ (cs : List Char) (line col : Nat) (buffer : List Char),
      (∀ c ∈ cs, c ≠ '^') →
      parseLoop cs line col PState.Content buffer [] = ParseResult.ok [] := by
  intro cs
  induction cs with
  | nil =>
      intro line col buffer _
      cases buffer with
      | nil => rfl
      | cons c rest => simp [parseLoop, finishParse, Block.build, buildF, buildSkip]
  | cons c rest ih =>
      intro line col buffer h
      have hc : c ≠ '^' := h c (List.mem_cons_self c rest)
      simp only [parseLoop, hc, if_false]
      exact ih _ _ _ (fun x hx => h x (List.mem_cons_of_mem c hx))

/-- Claim C1 (corrected).  The original claim says a command-less source
parses to a single implicit block that renders back to the original text;
in fact `Block::build` skips every component before the first `Open`, so a
source containing no command-flag characters parses to an *empty* block
list — there is no implicit block at all.  Amended claim: for every source
text containing no command-flag characters, `Block::parse` succeeds and
returns the empty list of blocks. -/
theorem parse_no_commands_yields_no_blocks (s : String) (h : ∀ c ∈ s.data, c ≠ '^') :
    Block.parse s = ParseResult.ok [] :=
  parseLoop_content_no_flag s.data 1 0 [] h

theorem parse_no_commands_yields_no_blocks_witness :
    Block.parse "hello world\n" = ParseResult.ok [] :=
  parse_no_commands_yields_no_blocks "hello world\n" (by decide)

/-- Claim C1 counterexample: parsing the command-less source "hello" yields
`Ok` with zero blocks, not a single implicit block, so there is no block
whose rendering could round-trip the text. -/
theorem parse_no_commands_counterexample :
    Block.parse "hello" = ParseResult.ok [] ∧
      ∀ b : Block, Block.parse "hello" ≠ ParseResult.ok [b] := by
  constructor
  · rfl
  · intro b h
    have h2 := (show Block.parse "hello" = ParseResult.ok [] from rfl).symm.trans h
    simp at h2

/-- Claim C3 (code bug).  The spec says every failure of `Block::parse` is
returned as an `Err` value, but a command span whose text begins with
whitespace makes `commands_from_str` fail and `close_command` turns that
failure into a `panic!`: on the source `"^| x|"` the Rust process aborts
instead of returning an error value. -/
theorem parse_whitespace_command_panics :
    Block.parse "^| x|" = ParseResult.panic "Couldn't parse command flag from  x" := rfl

/-- Claim C2 (amended).  The original claim says *any* argument-count
mismatch, including supplying no arguments at all to a block with
parameters, fails with an arity error.  In fact a use site with zero
arguments passes `None`, and `render_with_params` skips `build_params` (and
with it the arity check) entirely in that case.  Amended claim: when an
argument list *is* supplied, a count different from the declared parameter
count fails with the arity error reporting expected vs. received, and a
matching count binds the parameters and proceeds to the block body; when no
argument list is supplied, rendering proceeds with empty bindings and no
arity check, whatever the declared parameter count. -/
theorem render_arity_check (lib : List (String × Block)) (f : Nat) (b : Block)
    (ps : List Parameter) (ind : Nat) :
    (ps.length ≠ b.param_names.length →
      render_with_params lib (f + 1) b (some ps) ind =
        Except.error ("Expected " ++ toString b.param_names.length ++
          " parameter(s), received " ++ toString ps.length)) ∧
    (ps.length = b.param_names.length →
      render_with_params lib (f + 1) b (some ps) ind =
        renderBody (fun b' p' i' => render_with_params lib f b' p' i') lib
          (b.param_names.zip ps) ind "" 0 b.elements) ∧
    render_with_params lib (f + 1) b none ind =
      renderBody (fun b' p' i' => render_with_params lib f b' p' i') lib [] ind "" 0 b.elements := by
  refine ⟨?_, ?_, ?_⟩
  · intro h
    have h' : ¬ (b.param_names.length = ps.length) := fun hh => h hh.symm
    simp [render_with_params, bindParams, build_params, h']
  · intro h
    simp [render_with_params, bindParams, build_params, h.symm]
  · rfl

theorem render_arity_check_witness :
    render_with_params [] 1 ⟨"B", ["p"], none, [Element.Content "hi"]⟩
        (some [Parameter.Literal "x", Parameter.Literal "y"]) 0 =
      Except.error "Expected 1 parameter(s), received 2" :=
  (render_arity_check [] 0 ⟨"B", ["p"], none, [Element.Content "hi"]⟩
    [Parameter.Literal "x", Parameter.Literal "y"] 0).1 (by decide)

/-- Claim C2 counterexample: block `B` declares one parameter, yet invoking
it from a use site with no arguments at all renders successfully (no
arity error reporting expected 1, received 0 — no error of any kind). -/
theorem use_without_arguments_skips_arity_check :
    render_with_params [("B", ⟨"B", ["p"], none, [Element.Content "hi"]⟩)] 2
        ⟨"c", [], none, [Element.UseBlock false (Argument.Name "B") none]⟩ none 0 =
      Except.ok "hi" ∧
    ∀ msg, render_with_params [("B", ⟨"B", ["p"], none, [Element.Content "hi"]⟩)] 2
        ⟨"c", [], none, [Element.UseBlock false (Argument.Name "B") none]⟩ none 0 ≠
      Except.error msg := by
  constructor
  · rfl
  · intro msg h
    have h2 := (show render_with_params
        [("B", ⟨"B", ["p"], none, [Element.Content "hi"]⟩)] 2
        ⟨"c", [], none, [Element.UseBlock false (Argument.Name "B") none]⟩ none 0 =
        Except.ok "hi" from rfl).symm.trans h
    simp at h2

/-- Claim C6 (confirmed).  A use site whose target evaluates to a
`Literal` value `s` splices `s` into the output and performs no library
lookup: the library is universally quantified here, so the result is the
same whether or not some block is registered under the name `s`, and the
use-site arguments are never evaluated. -/
theorem literal_target_splices_verbatim (lib : List (String × Block)) (f ind0 : Nat)
    (indented : Bool) (t : Argument) (args : Option (List Argument))
    (names : List String) (ps : List Parameter) (s cn : String) (cex : Option Export)
    (hlen : names.length = ps.length)
    (heval : evaluate t (names.zip ps) = Except.ok (Parameter.Literal s)) :
    render_with_params lib (f + 1) ⟨cn, names, cex, [Element.UseBlock indented t args]⟩
      (some ps) ind0 = Except.ok s := by
  simp [render_with_params, bindParams, build_params, hlen, renderBody, renderElement,
    heval, empty_string_append]

theorem literal_target_splices_verbatim_witness :
    render_with_params [("W", ⟨"W", [], none, [Element.Content "NOT"]⟩)] 1
        ⟨"c", [], none, [Element.UseBlock false (Argument.Literal "W") none]⟩
        (some []) 0 = Except.ok "W" ∧
    lookupBlock [("W", ⟨"W", [], none, [Element.Content "NOT"]⟩)] "W" =
      some ⟨"W", [], none, [Element.Content "NOT"]⟩ :=
  ⟨literal_target_splices_verbatim _ 0 0 false _ none [] [] "W" "c" none rfl rfl, rfl⟩

/-- Claim C7 (amended).  The original claim says an indented (`ui`)
reference to a *one-line* block `B`, after multi-line content ending in two
indent units, renders `B`'s content shifted by exactly two indent units
relative to a non-indented (`u`) reference; but the renderer only inserts
indentation *after newlines inside the callee's content*, so for a one-line
`B` the two renders are byte-for-byte identical (see the counterexample).
Amended claim: in that configuration the `ui` reference renders `B`'s
content with exactly two indent units inserted after each of its newlines
(`applyIndent 2`), while the `u` reference renders `B`'s content verbatim —
so every line of `B` after its first is shifted by exactly two indent
units, and a one-line `B` is unshifted. -/
theorem indented_use_shifts_nested_lines (lib : List (String × Block)) (f : Nat)
    (n cn : String) (cps : List String) (cex : Option Export) (B : Block) (c bc : String)
    (hlook : lookupBlock lib n = some B)
    (hB : B.elements = [Element.Content bc])
    (hsplit : 1 < (splitNl c.data).length)
    (hlast : (splitNl c.data).getLast?.getD [] = ['\t', '\t']) :
    render_with_params lib (f + 2)
        ⟨cn, cps, cex, [Element.Content c, Element.UseBlock true (Argument.Name n) none]⟩
        none 0 = Except.ok (c ++ String.mk (applyIndent 2 bc.data)) ∧
    render_with_params lib (f + 2)
        ⟨cn, cps, cex, [Element.Content c, Element.UseBlock false (Argument.Name n) none]⟩
        none 0 = Except.ok (c ++ bc) := by
  have htabs : countLeadingTabs ['\t', '\t'] = 2 := rfl
  constructor
  · simp [render_with_params, bindParams, renderBody, renderElement, evaluate, evalArgs,
      hlook, hB, hsplit, hlast, htabs, empty_string_append]
  · simp [render_with_params, bindParams, renderBody, renderElement, evaluate, evalArgs,
      hlook, hB, hsplit, hlast, htabs, empty_string_append]

theorem indented_use_shifts_nested_lines_witness :
    render_with_params [("B", ⟨"B", [], none, [Element.Content "a\nb"]⟩)] 2
        ⟨"c", [], none,
          [Element.Content "x\n\t\t", Element.UseBlock true (Argument.Name "B") none]⟩
        none 0 = Except.ok "x\n\t\ta\n\t\tb" ∧
    render_with_params [("B", ⟨"B", [], none, [Element.Content "a\nb"]⟩)] 2
        ⟨"c", [], none,
          [Element.Content "x\n\t\t", Element.UseBlock false (Argument.Name "B") none]⟩
        none 0 = Except.ok "x\n\t\ta\nb" :=
  indented_use_shifts_nested_lines [("B", ⟨"B", [], none, [Element.Content "a\nb"]⟩)] 0
    "B" "c" [] none ⟨"B", [], none, [Element.Content "a\nb"]⟩ "x\n\t\t" "a\nb"
    rfl rfl (by decide) (by decide)

/-- Claim C7 counterexample: with a *one-line* block `B` (content
`"hello"`), the indented (`ui`) and non-indented (`u`) references render
byte-for-byte identical output, so `B`'s content is not shifted by two
indent units relative to the non-indented render. -/
theorem indented_use_one_line_block_identical :
    render_with_params [("B", ⟨"B", [], none, [Element.Content "hello"]⟩)] 3
        ⟨"c", [], none,
          [Element.Content "x\n\t\t", Element.UseBlock true (Argument.Name "B") none]⟩
        none 0 = Except.ok "x\n\t\thello" ∧
    render_with_params [("B", ⟨"B", [], none, [Element.Content "hello"]⟩)] 3
        ⟨"c", [], none,
          [Element.Content "x\n\t\t", Element.UseBlock false (Argument.Name "B") none]⟩
        none 0 = Except.ok "x\n\t\thello" := ⟨rfl, rfl⟩

/-- Whether the last component emitted so far is a use-block element — the
condition `close_command` actually tests (src/block.rs). -/
def lastIsUse (components : List Component) : Bool :=
  match components.getLast? with
  | some (Component.Element (Element.UseBlock _ _ _)) => true
  | _ => false

theorem use_last_iff (cs : List Component) :
    (use_last_check cs = PState.Content ↔ lastIsUse cs = true) ∧
    (use_last_check cs = PState.SkipNewline ↔ lastIsUse cs = false) := by
  cases h : cs.getLast? with
  | none => simp [use_last_check, lastIsUse, h]
  | some comp =>
    cases comp with
    | Open n => simp [use_last_check, lastIsUse, h]
    | Attribute a => simp [use_last_check, lastIsUse, h]
    | Close => simp [use_last_check, lastIsUse, h]
    | Element e =>
      cases e with
      | Content s => simp [use_last_check, lastIsUse, h]
      | UseBlock i t a => simp [use_last_check, lastIsUse, h]

/-- Claim C8 (amended).  The original claim says the lexer returns directly
to `Content` (preserving a following newline) exactly when *the command
just lexed* produced a use-block element.  In fact `close_command` inspects
`components.last()`: the decision is made on the last component emitted *so
far*, which differs from the original claim for commands that emit no
component (an argumentless `p`, or an empty command span) — after such a
command a newline is still preserved whenever the previous component was a
use-block element (see the counterexample).  Amended claim: after a
command-end delimiter that does not end in the `InvalidCommand` state, the
lexer enters `Content` iff the last component of the resulting stream is a
use-block element and `SkipNewline` otherwise; in `SkipNewline` exactly one
immediately following newline is swallowed, and any other character is
preserved in the buffered content. -/
theorem skip_newline_follows_last_component
    (buffer : List Char) (comps comps' : List Component) (st : PState)
    (h : close_command buffer comps = CloseResult.next st comps')
    (hni : ∀ r, st ≠ PState.InvalidCommand r)
    (rest : List Char) (line col : Nat) (c : Char) (hc : c ≠ '\n') :
    ((st = PState.Content ↔ lastIsUse comps' = true) ∧
      (st = PState.SkipNewline ↔ lastIsUse comps' = false)) ∧
    parseLoop ('\n' :: rest) line col PState.SkipNewline buffer comps =
      parseLoop rest (line + 1) 1 PState.Content buffer comps ∧
    parseLoop (c :: rest) line col PState.SkipNewline buffer comps =
      parseLoop rest line (col + 1) PState.Content (buffer ++ [c]) comps := by
  refine ⟨?_, by simp [parseLoop], by simp [parseLoop, hc]⟩
  cases buffer with
  | nil =>
      simp only [close_command, CloseResult.next.injEq] at h
      rw [← h.1, ← h.2]
      exact use_last_iff comps
  | cons hd tl =>
      simp only [close_command] at h
      cases hcf : commands_from_str (String.mk (hd :: tl)) with
      | error e => rw [hcf] at h; cases h
      | ok cmds =>
        simp only [hcf] at h
        cases hbc : block_components_from_commands cmds with
        | error err =>
            simp only [hbc] at h
            injection h with h1 h2
            exact absurd h1.symm (hni err)
        | ok cs2 =>
            simp only [hbc] at h
            injection h with h1 h2
            rw [← h1, ← h2]
            exact use_last_iff (comps ++ cs2)

theorem skip_newline_follows_last_component_witness :
    ((PState.Content = PState.Content ↔
        lastIsUse [Component.Element (Element.UseBlock false (Argument.Name "b") none)] = true) ∧
      (PState.Content = PState.SkipNewline ↔
        lastIsUse [Component.Element (Element.UseBlock false (Argument.Name "b") none)] = false)) ∧
    parseLoop ['\n'] 1 0 PState.SkipNewline ['p']
        [Component.Element (Element.UseBlock false (Argument.Name "b") none)] =
      parseLoop [] 2 1 PState.Content ['p']
        [Component.Element (Element.UseBlock false (Argument.Name "b") none)] ∧
    parseLoop ['a'] 1 0 PState.SkipNewline ['p']
        [Component.Element (Element.UseBlock false (Argument.Name "b") none)] =
      parseLoop [] 1 1 PState.Content (['p'] ++ ['a'])
        [Component.Element (Element.UseBlock false (Argument.Name "b") none)] :=
  skip_newline_follows_last_component ['p']
    [Component.Element (Element.UseBlock false (Argument.Name "b") none)]
    [Component.Element (Element.UseBlock false (Argument.Name "b") none)]
    PState.Content rfl (fun r hr => PState.noConfusion hr) [] 1 0 'a' (by decide)

/-- Claim C8 counterexample: in `"^|n a|\n^|u b|^|p|\nX\n^|e|"` the `p`
command produces no use-block element, so by the original claim the newline
right after it should be swallowed; but because the *previous* component is
the use-block from `^|u b|`, the lexer returns to `Content` and the newline
survives into the block's content (`"\nX"`, not `"X"`). -/
theorem newline_preserved_after_empty_command :
    Block.parse "^|n a|\n^|u b|^|p|\nX\n^|e|" =
      ParseResult.ok [⟨"a", [], none,
        [Element.UseBlock false (Argument.Name "b") none, Element.Content "\nX"]⟩] ∧
    ("\nX" : String) ≠ "X" := ⟨rfl, by decide⟩

theorem registerExport_blocks (lib : Library) (b : Block) :
    (registerExport lib b).blocks = lib.blocks := by
  cases hx : b.exportDecl with
  | none => simp [registerExport, hx]
  | some e => cases e <;> simp [registerExport, hx]

/-- Claim C4 (confirmed).  An `x` command carrying a path token marks the
block as a file export to that path; an `x` command with no argument is not
a grammar error and marks the block as a block export; importing registers
a block-export name into the pending block-export list and a file export
into the file-export map (src/library.rs lines 47-56). -/
theorem export_command_marks_block_or_file (path : String) (lib : Library) (b : Block)
    (hfresh : containsName lib.blocks b.name = false) :
    block_components_from_commands [Command.Flag "x", Command.Argument (Argument.Name path)] =
      Except.ok [Component.Attribute (Attribute.Export (Export.file path))] ∧
    block_components_from_commands [Command.Flag "x"] =
      Except.ok [Component.Attribute (Attribute.Export Export.block)] ∧
    (b.exportDecl = some Export.block →
      import_blocks lib [b] =
        ({ blocks := lib.blocks ++ [(b.name, b)],
           block_exports := lib.block_exports ++ [b.name],
           file_exports := lib.file_exports }, ImportOutcome.ok)) ∧
    (∀ p, b.exportDecl = some (Export.file p) →
      import_blocks lib [b] =
        ({ blocks := lib.blocks ++ [(b.name, b)],
           block_exports := lib.block_exports,
           file_exports := insertFileExport lib.file_exports b.name p }, ImportOutcome.ok)) := by
  refine ⟨rfl, rfl, ?_, ?_⟩
  · intro hb
    simp [import_blocks, hfresh, registerExport, hb]
  · intro p hb
    simp [import_blocks, hfresh, registerExport, hb]

theorem export_command_marks_block_or_file_witness :
    block_components_from_commands [Command.Flag "x"] =
      Except.ok [Component.Attribute (Attribute.Export Export.block)] ∧
    import_blocks Library.new [⟨"A", [], some Export.block, []⟩] =
      ({ blocks := [("A", ⟨"A", [], some Export.block, []⟩)],
         block_exports := ["A"], file_exports := [] }, ImportOutcome.ok) :=
  ⟨(export_command_marks_block_or_file "out.txt" Library.new
      ⟨"A", [], some Export.block, []⟩ rfl).2.1,
   (export_command_marks_block_or_file "out.txt" Library.new
      ⟨"A", [], some Export.block, []⟩ rfl).2.2.1 rfl⟩

theorem containsName_append (xs t : List (String × Block)) (n : String)
    (h : containsName xs n = true) : containsName (xs ++ t) n = true := by
  induction xs with
  | nil => cases h
  | cons p rest ih =>
      obtain ⟨k, v⟩ := p
      by_cases hk : k = n
      · simp [containsName, hk]
      · simp only [containsName, if_neg hk] at h
        simp only [List.cons_append, containsName, if_neg hk]
        exact ih h

theorem containsName_append_self (xs : List (String × Block)) (n : String) (v : Block) :
    containsName (xs ++ [(n, v)]) n = true := by
  induction xs with
  | nil => simp [containsName]
  | cons p rest ih =>
      obtain ⟨k, w⟩ := p
      by_cases hk : k = n
      · simp [containsName, hk]
      · simp only [List.cons_append, containsName, if_neg hk]
        exact ih

theorem import_blocks_blocks_prefix :
    ∀ (bs : List Block) (lib lib' : Library) (r : ImportOutcome),
      import_blocks lib bs = (lib', r) → ∃ t, lib'.blocks = lib.blocks ++ t := by
  intro bs
  induction bs with
  | nil =>
      intro lib lib' r h
      injection h with h1 _
      exact ⟨[], by rw [← h1]; simp⟩
  | cons b rest ih =>
      intro lib lib' r h
      simp only [import_blocks] at h
      by_cases hc : containsName lib.blocks b.name = true
      · rw [if_pos hc] at h
        injection h with h1 _
        exact ⟨[], by rw [← h1]; simp⟩
      · rw [if_neg hc] at h
        obtain ⟨t, ht⟩ := ih _ _ _ h
        refine ⟨(b.name, b) :: t, ?_⟩
        rw [ht]
        simp [registerExport_blocks]

theorem import_blocks_ok_mem :
    ∀ (bs : List Block) (lib lib' : Library),
      import_blocks lib bs = (lib', ImportOutcome.ok) →
      ∀ b ∈ bs, containsName lib'.blocks b.name = true := by
  intro bs
  induction bs with
  | nil => intro lib lib' _ b hb; cases hb
  | cons hd tl ih =>
      intro lib lib' h b hb
      simp only [import_blocks] at h
      by_cases hc : containsName lib.blocks hd.name = true
      · rw [if_pos hc] at h
        injection h with _ h2
        cases h2
      · rw [if_neg hc] at h
        rcases List.mem_cons.mp hb with rfl | htl
        · obtain ⟨t, ht⟩ := import_blocks_blocks_prefix tl _ _ _ h
          rw [ht]
          have hmid : ({ registerExport lib b with
              blocks := (registerExport lib b).blocks ++ [(b.name, b)] } : Library).blocks =
              lib.blocks ++ [(b.name, b)] := by
            simp [registerExport_blocks]
          rw [hmid]
          exact containsName_append _ _ _ (containsName_append_self _ _ _)
        · exact ih _ _ h b htl

theorem import_blocks_append (xs ys : List Block) (lib : Library) :
    import_blocks lib (xs ++ ys) =
      match import_blocks lib xs with
      | (l, ImportOutcome.ok) => import_blocks l ys
      | r => r := by
  induction xs generalizing lib with
  | nil => rfl
  | cons b rest ih =>
      simp only [List.cons_append, import_blocks]
      by_cases hc : containsName lib.blocks b.name = true
      · rw [if_pos hc, if_pos hc]
      · rw [if_neg hc, if_neg hc]
        exact ih _

/-- Claim C10 (confirmed).  `Library::import_from_string` is not atomic:
when a source parses to a block list in which some block's name is already
taken after the preceding blocks were registered, the call returns the
name-collision error but leaves the library exactly in the state produced
by importing the preceding blocks — every one of which (with its export
registration) remains registered. -/
theorem import_not_atomic_on_collision (lib lib1 : Library) (s : String)
    (bs1 bs2 : List Block) (b : Block)
    (hparse : Block.parse s = ParseResult.ok (bs1 ++ b :: bs2))
    (h1 : import_blocks lib bs1 = (lib1, ImportOutcome.ok))
    (h2 : containsName lib1.blocks b.name = true) :
    Library.import_from_string lib s =
      (lib1, ImportOutcome.error ("Name taken '" ++ b.name ++ "'")) ∧
    ∀ b' ∈ bs1, containsName lib1.blocks b'.name = true := by
  constructor
  · simp only [Library.import_from_string, hparse]
    rw [import_blocks_append bs1 (b :: bs2) lib, h1]
    simp [import_blocks, h2]
  · exact import_blocks_ok_mem bs1 lib lib1 h1

theorem import_not_atomic_on_collision_witness :
    Library.import_from_string Library.new "^|n A|\nhi\n^|e|\n^|n A|\nbye\n^|e|" =
      ({ blocks := [("A", ⟨"A", [], none, [Element.Content "hi"]⟩)],
         block_exports := [], file_exports := [] },
       ImportOutcome.error "Name taken 'A'") :=
  (import_not_atomic_on_collision Library.new
    ⟨[("A", ⟨"A", [], none, [Element.Content "hi"]⟩)], [], []⟩
    "^|n A|\nhi\n^|e|\n^|n A|\nbye\n^|e|"
    [⟨"A", [], none, [Element.Content "hi"]⟩] []
    ⟨"A", [], none, [Element.Content "bye"]⟩ rfl rfl rfl).1

theorem import_blocks_collision :
    ∀ (bs : List Block) (lib : Library),
      (∃ b ∈ bs, containsName lib.blocks b.name = true) →
      ∃ n, (import_blocks lib bs).2 = ImportOutcome.error ("Name taken '" ++ n ++ "'") := by
  intro bs
  induction bs with
  | nil =>
      intro lib h
      obtain ⟨b, hb, _⟩ := h
      cases hb
  | cons hd tl ih =>
      intro lib h
      obtain ⟨b, hb, hc⟩ := h
      simp only [import_blocks]
      by_cases hhd : containsName lib.blocks hd.name = true
      · rw [if_pos hhd]
        exact ⟨hd.name, rfl⟩
      · rw [if_neg hhd]
        rcases List.mem_cons.mp hb with rfl | htl
        · exact absurd hc hhd
        · apply ih
          refine ⟨b, htl, ?_⟩
          have hmid : ({ registerExport lib hd with
              blocks := (registerExport lib hd).blocks ++ [(hd.name, hd)] } : Library).blocks =
              lib.blocks ++ [(hd.name, hd)] := by
            simp [registerExport_blocks]
          rw [hmid]
          exact containsName_append _ _ _ hc

/-- Claim C5 (confirmed).  Two source units that each define a block
literally named `X`, each importable on its own, cannot both be imported
into one library: whichever is imported second fails with a name-collision
error (`Name taken '...'`), in both import orders. -/
theorem duplicate_name_import_fails_both_orders (s1 s2 X : String)
    (bs1 bs2 : List Block) (l1 l2 : Library)
    (hp1 : Block.parse s1 = ParseResult.ok bs1)
    (hp2 : Block.parse s2 = ParseResult.ok bs2)
    (hx1 : ∃ b ∈ bs1, b.name = X)
    (hx2 : ∃ b ∈ bs2, b.name = X)
    (hi1 : Library.new.import_from_string s1 = (l1, ImportOutcome.ok))
    (hi2 : Library.new.import_from_string s2 = (l2, ImportOutcome.ok)) :
    (∃ n, (l1.import_from_string s2).2 =
        ImportOutcome.error ("Name taken '" ++ n ++ "'")) ∧
    (∃ n, (l2.import_from_string s1).2 =
        ImportOutcome.error ("Name taken '" ++ n ++ "'")) := by
  have himp1 : import_blocks Library.new bs1 = (l1, ImportOutcome.ok) := by
    simpa only [Library.import_from_string, hp1] using hi1
  have himp2 : import_blocks Library.new bs2 = (l2, ImportOutcome.ok) := by
    simpa only [Library.import_from_string, hp2] using hi2
  obtain ⟨b1, hb1, hn1⟩ := hx1
  obtain ⟨b2, hb2, hn2⟩ := hx2
  have hc1 : containsName l1.blocks X = true := by
    rw [← hn1]
    exact import_blocks_ok_mem bs1 _ _ himp1 b1 hb1
  have hc2 : containsName l2.blocks X = true := by
    rw [← hn2]
    exact import_blocks_ok_mem bs2 _ _ himp2 b2 hb2
  constructor
  · simp only [Library.import_from_string, hp2]
    exact import_blocks_collision bs2 l1 ⟨b2, hb2, by rw [hn2]; exact hc1⟩
  · simp only [Library.import_from_string, hp1]
    exact import_blocks_collision bs1 l2 ⟨b1, hb1, by rw [hn1]; exact hc2⟩

theorem duplicate_name_import_fails_both_orders_witness :
    (∃ n, ((⟨[("X", ⟨"X", [], none, [Element.Content "hi"]⟩)], [], []⟩ :
        Library).import_from_string "^|n X|\nbye\n^|e|").2 =
        ImportOutcome.error ("Name taken '" ++ n ++ "'")) ∧
    (∃ n, ((⟨[("X", ⟨"X", [], none, [Element.Content "bye"]⟩)], [], []⟩ :
        Library).import_from_string "^|n X|\nhi\n^|e|").2 =
        ImportOutcome.error ("Name taken '" ++ n ++ "'")) :=
  duplicate_name_import_fails_both_orders "^|n X|\nhi\n^|e|" "^|n X|\nbye\n^|e|" "X"
    [⟨"X", [], none, [Element.Content "hi"]⟩] [⟨"X", [], none, [Element.Content "bye"]⟩]
    ⟨[("X", ⟨"X", [], none, [Element.Content "hi"]⟩)], [], []⟩
    ⟨[("X", ⟨"X", [], none, [Element.Content "bye"]⟩)], [], []⟩
    rfl rfl (by decide) (by decide) rfl rfl

theorem lookupBlock_append_fresh :
    ∀ (xs : List (String × Block)) (k : String) (v : Block),
      containsName xs k = false → lookupBlock (xs ++ [(k, v)]) k = some v := by
  intro xs
  induction xs with
  | nil => intro k v _; simp [lookupBlock]
  | cons p rest ih =>
      obtain ⟨a, b⟩ := p
      intro k v h
      simp only [containsName] at h
      by_cases hk : a = k
      · rw [if_pos hk] at h
        cases h
      · rw [if_neg hk] at h
        simp only [List.cons_append, lookupBlock, if_neg hk]
        exact ih k v h

/-- Claim C9 (confirmed).  If the single pending block export renders to a
text defining exactly one ordinary (non-export) block with a fresh name,
the fixed-point loop of `export_all` finishes within a single expansion
pass (loop fuel 1 suffices — the pass registers no new block export, so the
loop breaks immediately), the new block is afterwards reachable by name in
the block map that `Library::render` consults, and `export_all` then
renders each file export exactly once against that final library, which the
file phase leaves untouched (nothing is re-ingested). -/
theorem export_all_single_pass_fixed_point (lib : Library) (rf : Nat) (bn t : String)
    (nb : Block)
    (hexp : lib.block_exports = [bn])
    (hrender : Library.render lib rf bn = Except.ok t)
    (hparse : Block.parse t = ParseResult.ok [nb])
    (hord : nb.exportDecl = none)
    (hfresh : containsName lib.blocks nb.name = false) :
    export_loop rf 1 lib =
      (⟨lib.blocks ++ [(nb.name, nb)], [], lib.file_exports⟩, ImportOutcome.ok) ∧
    lookupBlock (lib.blocks ++ [(nb.name, nb)]) nb.name = some nb ∧
    ∀ files,
      renderFiles rf ⟨lib.blocks ++ [(nb.name, nb)], [], lib.file_exports⟩ =
        Except.ok files →
      export_all rf 1 lib =
        ExportOutcome.ok ⟨lib.blocks ++ [(nb.name, nb)], [], lib.file_exports⟩ files := by
  have hr : Library.render ⟨lib.blocks, [], lib.file_exports⟩ rf bn = Except.ok t := hrender
  have hpass : export_pass rf ⟨lib.blocks, [], lib.file_exports⟩ [bn] =
      (⟨lib.blocks ++ [(nb.name, nb)], [], lib.file_exports⟩, ImportOutcome.ok) := by
    simp only [export_pass, hr, Library.import_from_string, hparse, import_blocks, hfresh,
      Bool.false_eq_true, if_false, registerExport, hord]
  have hloop : export_loop rf 1 lib =
      (⟨lib.blocks ++ [(nb.name, nb)], [], lib.file_exports⟩, ImportOutcome.ok) := by
    have h1 : ({ lib with block_exports := [] } : Library) =
        ⟨lib.blocks, [], lib.file_exports⟩ := rfl
    simp only [export_loop, h1, hexp, hpass, List.isEmpty_nil, if_true]
  refine ⟨hloop, lookupBlock_append_fresh lib.blocks nb.name nb hfresh, ?_⟩
  intro files hfiles
  simp only [export_all, hloop, hfiles]

theorem export_all_single_pass_fixed_point_witness :
    export_loop 1 1
        ⟨[("A", ⟨"A", [], some Export.block, [Element.Content "^|n B|\nhi\n^|e|"]⟩)],
          ["A"], [("A", "out.txt")]⟩ =
      (⟨[("A", ⟨"A", [], some Export.block, [Element.Content "^|n B|\nhi\n^|e|"]⟩)] ++
          [("B", ⟨"B", [], none, [Element.Content "hi"]⟩)], [], [("A", "out.txt")]⟩,
        ImportOutcome.ok) ∧
    lookupBlock
        ([("A", ⟨"A", [], some Export.block, [Element.Content "^|n B|\nhi\n^|e|"]⟩)] ++
          [("B", ⟨"B", [], none, [Element.Content "hi"]⟩)]) "B" =
      some ⟨"B", [], none, [Element.Content "hi"]⟩ ∧
    export_all 1 1
        ⟨[("A", ⟨"A", [], some Export.block, [Element.Content "^|n B|\nhi\n^|e|"]⟩)],
          ["A"], [("A", "out.txt")]⟩ =
      ExportOutcome.ok
        ⟨[("A", ⟨"A", [], some Export.block, [Element.Content "^|n B|\nhi\n^|e|"]⟩)] ++
          [("B", ⟨"B", [], none, [Element.Content "hi"]⟩)], [], [("A", "out.txt")]⟩
        [("out.txt", "^|n B|\nhi\n^|e|")] := by
  have h := export_all_single_pass_fixed_point
    ⟨[("A", ⟨"A", [], some Export.block, [Element.Content "^|n B|\nhi\n^|e|"]⟩)],
      ["A"], [("A", "out.txt")]⟩
    1 "A" "^|n B|\nhi\n^|e|" ⟨"B", [], none, [Element.Content "hi"]⟩
    rfl rfl rfl rfl rfl
  exact ⟨h.1, h.2.1, h.2.2 [("out.txt", "^|n B|\nhi\n^|e|")] rfl⟩
